import Mathlib

/-!
Shallow embedding of `src/skills_extractor.py` (Skills Extractor API).

The spaCy pipeline is abstracted as an `AnnotationEngine` record providing
tokenization, optional named-entity recognition (the `ner` pipe) and optional
syntactic parsing (the `parser` pipe, which powers `doc.noun_chunks`).
`extract_skills` mirrors the Python function line by line: the four matching
strategies accumulate into a set (modelled as a list that is deduplicated at
the end) and the result is `sorted(list(extracted_skills))`.

Python string primitives (`str.lower`, `str.split`, substring `in`,
`str.isdigit`, `sorted`) are modelled by structurally recursive functions on
the character lists, so that every definition evaluates inside the kernel.
`sorted` on strings compares lexicographically by code points; on the
duplicate-free lists produced here any comparison sort returns the same
output, so a plain insertion sort over that order is an exact model.
-/

namespace SkillsExtractor

/-- The `TECHNICAL_SKILLS` set from the source, as a list (the Python set's
iteration order is irrelevant because the final result is sorted). -/
def TECHNICAL_SKILLS : List String := [
  -- Programming Languages
  "python", "java", "javascript", "typescript", "c++", "c#", "ruby", "php", "swift", "golang", "rust", "kotlin",
  "scala", "perl", "r", "matlab", "bash", "shell", "sql", "nosql", "html", "css", "sass", "less",
  -- Frameworks and Libraries
  "django", "flask", "fastapi", "spring", "react", "angular", "vue", "node.js", "express", "laravel", "symfony",
  "ruby on rails", "asp.net", "jquery", "bootstrap", "tensorflow", "pytorch", "keras", "scikit-learn", "pandas",
  "numpy", "matplotlib", "seaborn", "d3.js", "plotly", "selenium", "pytest", "jest", "mocha", "spacy",
  -- Databases
  "mysql", "postgresql", "mongodb", "oracle", "sql server", "sqlite", "redis", "cassandra", "couchbase",
  "dynamodb", "firebase", "neo4j", "elasticsearch", "mariadb",
  -- DevOps and Infrastructure
  "docker", "kubernetes", "jenkins", "github actions", "gitlab ci", "travis ci", "aws", "azure", "gcp",
  "terraform", "ansible", "chef", "puppet", "vagrant", "prometheus", "grafana", "elk stack", "nginx", "apache",
  "linux", "unix", "windows server", "vmware", "virtualbox",
  -- Version Control
  "git", "github", "gitlab", "bitbucket", "svn", "mercurial",
  -- Methodologies
  "agile", "scrum", "kanban", "waterfall", "tdd", "bdd", "ci/cd", "devops", "microservices", "soa", "rest",
  "graphql", "soap", "grpc",
  -- Other Tech Skills
  "machine learning", "deep learning", "artificial intelligence", "data science", "big data", "data analysis",
  "data visualization", "etl", "data mining", "nlp", "computer vision", "blockchain", "iot", "ar/vr",
  "cybersecurity", "network security", "cloud computing", "serverless", "web development", "mobile development",
  "responsive design", "ux/ui", "seo", "api design", "system design", "distributed systems", "parallel computing",
  "web scraping", "data engineering", "backend", "frontend", "full stack", "qa automation"]

/-- Python `str.lower()` (per-character lowering of basic latin letters). -/
def pyLower (s : String) : String :=
  String.mk (s.data.map Char.toLower)

/-- Does the character list start with `needle`? -/
def startsWithChars : List Char → List Char → Bool
  | [], _ => true
  | _ :: _, [] => false
  | a :: as, b :: bs => a == b && startsWithChars as bs

/-- Python's substring test `needle in hay` on character lists. -/
def pyInChars (needle : List Char) : List Char → Bool
  | [] => startsWithChars needle []
  | c :: cs => startsWithChars needle (c :: cs) || pyInChars needle cs

/-- Python `needle in hay` (substring containment) on strings. -/
def pyIn (needle hay : String) : Bool :=
  pyInChars needle.data hay.data

/-- Python `str.isdigit()` restricted to ASCII digits: nonempty and all digits. -/
def pyIsDigit (s : String) : Bool :=
  !s.data.isEmpty && s.data.all Char.isDigit

/-- Helper for `pySplit`: accumulate the current word (reversed) while
scanning the characters. -/
def wordsAux : List Char → List Char → List String
  | [], cur => if cur.isEmpty then [] else [String.mk cur.reverse]
  | c :: cs, cur =>
    if c.isWhitespace then
      if cur.isEmpty then wordsAux cs [] else String.mk cur.reverse :: wordsAux cs []
    else
      wordsAux cs (c :: cur)

/-- Python `str.split()` with no argument: split on whitespace runs, dropping
empty pieces. -/
def pySplit (s : String) : List String :=
  wordsAux s.data []

/-- Lexicographic (code point) comparison `as ≤ bs` on character lists, the
order Python uses to compare strings. -/
def leChars : List Char → List Char → Bool
  | [], _ => true
  | _ :: _, [] => false
  | a :: as, b :: bs => decide (a < b) || (a == b && leChars as bs)

/-- Python string comparison `a <= b`. -/
def strLe (a b : String) : Bool :=
  leChars a.data b.data

/-- Insert a string into a list sorted by `strLe`, keeping it sorted. -/
def pyInsert (x : String) : List String → List String
  | [] => [x]
  | y :: ys => if strLe x y then x :: y :: ys else y :: pyInsert x ys

/-- Python `sorted` on a list of strings (insertion sort over the code-point
lexicographic order; agrees with CPython `sorted` on duplicate-free lists). -/
def pySorted : List String → List String
  | [] => []
  | x :: xs => pyInsert x (pySorted xs)

/-- `sorted(list(s))` where the set `s` is represented by a list of its
elements with possible repetitions. -/
def setSorted (l : List String) : List String :=
  pySorted l.dedup

/-- The spaCy pipeline abstracted by its capability surface: `tokenize` gives
the token texts of `nlp(text)`, `hasNER` is `nlp.has_pipe("ner")` with
`entities` giving `(ent.text, ent.label_)` pairs of `doc.ents`, `hasParser` is
`nlp.has_pipe("parser")` with `nounChunks` giving the texts of
`doc.noun_chunks` or raising (modelled as `Except.error`). -/
structure AnnotationEngine where
  tokenize : String → List String
  hasNER : Bool
  entities : String → List (String × String)
  hasParser : Bool
  nounChunks : String → Except String (List String)

/-- Strategy 1 of `extract_skills`: for each token of the document, if
`token.text.lower() in TECHNICAL_SKILLS and len(token.text) > 1`, add
`token.text.lower()`. -/
def tokenMatches (tokens : List String) : List String :=
  (tokens.filter (fun tok =>
    TECHNICAL_SKILLS.contains (pyLower tok) && tok.length > 1)).map pyLower

/-- Strategy 2 of `extract_skills`: for each vocabulary entry containing a
space, if `skill.lower() in text.lower()`, add `skill.lower()`. -/
def phraseMatches (lowerText : String) : List String :=
  (TECHNICAL_SKILLS.filter (fun sk =>
    pyIn " " sk && pyIn (pyLower sk) lowerText)).map pyLower

/-- Strategy 3 of `extract_skills` (runs only with NER): for each entity with
label ORG or PRODUCT, text longer than one character and not purely numeric,
add the whole lower-cased entity text when any whitespace-delimited word of it
is a vocabulary entry. -/
def entityMatches (ents : List (String × String)) : List String :=
  (ents.filter (fun e =>
    (e.2 == "ORG" || e.2 == "PRODUCT") && e.1.length > 1 && !pyIsDigit e.1 &&
      (pySplit (pyLower e.1)).any (fun w => TECHNICAL_SKILLS.contains w))).map
    (fun e => pyLower e.1)

/-- Strategy 4, parser branch: for each noun chunk, add every vocabulary entry
of length > 1 that is a substring of the lower-cased chunk text. -/
def chunkMatches (chunks : List String) : List String :=
  chunks.flatMap (fun c =>
    TECHNICAL_SKILLS.filter (fun sk => pyIn sk (pyLower c) && sk.length > 1))

/-- The adjacent token pairs, one string `"doc[i].text doc[i+1].text"` for
each `i in range(len(doc) - 1)`. -/
def bigrams : List String → List String
  | a :: b :: rest => (a ++ " " ++ b) :: bigrams (b :: rest)
  | _ => []

/-- Strategy 4, fallback branch (no parser): add each lower-cased adjacent
token pair that is exactly a vocabulary entry. -/
def bigramMatches (tokens : List String) : List String :=
  ((bigrams tokens).map pyLower).filter (fun b => TECHNICAL_SKILLS.contains b)

/-- The core function `extract_skills(text)` of the source, parametrised by
the annotation engine `nlp`. `doc = nlp(text.lower())`; the four strategies
accumulate into `extracted_skills`; the parser branch catches any exception
from noun-chunk extraction; finally `sorted(list(extracted_skills))`. -/
def extract_skills (nlp : AnnotationEngine) (text : String) : List String :=
  let lower := pyLower text
  let tokens := nlp.tokenize lower
  let s1 := tokenMatches tokens
  let s2 := phraseMatches lower
  let s3 := if nlp.hasNER then entityMatches (nlp.entities lower) else []
  let s4 :=
    if nlp.hasParser then
      match nlp.nounChunks lower with
      | Except.ok chunks => chunkMatches chunks
      | Except.error _ => []
    else
      bigramMatches tokens
  setSorted (s1 ++ s2 ++ s3 ++ s4)

/-- Request item `JobDescriptionItem`. -/
structure JobDescriptionItem where
  job_id : String
  text : String
deriving DecidableEq

/-- Response model `SkillsResult`. -/
structure SkillsResult where
  job_id : String
  skills : List String
  count : Nat
deriving DecidableEq

/-- Response model `BatchSkillsResponse`. -/
structure BatchSkillsResponse where
  results : List SkillsResult
  total_processed : Nat
deriving DecidableEq

/-- The `/extract-skills` endpoint body: empty text raises HTTP 400 (modelled
as `Except.error` carrying the detail message). -/
def extract_skills_from_job_description (nlp : AnnotationEngine)
    (job_desc : JobDescriptionItem) : Except String SkillsResult :=
  if job_desc.text = "" then
    Except.error "Job description text cannot be empty"
  else
    Except.ok { job_id := job_desc.job_id, skills := extract_skills nlp job_desc.text,
                count := (extract_skills nlp job_desc.text).length }

/-- The `/extract-skills-batch` endpoint body: empty list raises HTTP 400;
otherwise the loop appends one result per item, skipping items with empty
text via `continue`. -/
def extract_skills_from_batch (nlp : AnnotationEngine)
    (job_descriptions : List JobDescriptionItem) : Except String BatchSkillsResponse :=
  if job_descriptions = [] then
    Except.error "Job descriptions list cannot be empty"
  else
    let results := job_descriptions.foldl (fun acc job_desc =>
      if job_desc.text = "" then acc
      else acc ++ [{ job_id := job_desc.job_id,
                     skills := extract_skills nlp job_desc.text,
                     count := (extract_skills nlp job_desc.text).length }]) []
    Except.ok { results := results, total_processed := results.length }

/-- The minimal fallback pipeline (`spacy.blank("en")`): tokenization only,
no `ner` pipe, no `parser` pipe; `doc.noun_chunks` raises when forced.
Tokenization is modelled as whitespace splitting. -/
def minimalEngine : AnnotationEngine where
  tokenize := fun s => pySplit s
  hasNER := false
  entities := fun _ => []
  hasParser := false
  nounChunks := fun _ => Except.error "noun_chunks requires the dependency parse"

/-- A pipeline with both capability flags set, fixed entity and chunk output;
used to exercise the NER and parser branches on concrete inputs. -/
def richEngine : AnnotationEngine where
  tokenize := fun s => pySplit s
  hasNER := true
  entities := fun _ => [("Apache Kafka Inc", "ORG")]
  hasParser := true
  nounChunks := fun _ => Except.ok ["a python developer"]

/-- A pipeline that advertises parsing capability but whose noun-chunk
extraction raises. -/
def brokenParserEngine : AnnotationEngine where
  tokenize := fun s => pySplit s
  hasNER := false
  entities := fun _ => []
  hasParser := true
  nounChunks := fun _ => Except.error "boom"

/-- The batch example given in the spec's testable properties. -/
def exampleBatch : List JobDescriptionItem :=
  [{ job_id := "1", text := "We use Python and Docker" },
   { job_id := "2", text := "" },
   { job_id := "3", text := "Experience with React.js and PostgreSQL" }]

/-- The batch output predicted by the spec: one `SkillsResult` per item with
non-empty text, in input order. -/
def batchResultsSpec (nlp : AnnotationEngine) (batch : List JobDescriptionItem) :
    List SkillsResult :=
  (batch.filter (fun jd => jd.text ≠ "")).map (fun jd =>
    { job_id := jd.job_id, skills := extract_skills nlp jd.text,
      count := (extract_skills nlp jd.text).length })

/-! ### Order and sorting infrastructure -/

theorem leChars_total : ∀ as bs : List Char, leChars as bs = true ∨ leChars bs as = true
  | [], _ => Or.inl rfl
  | _ :: _, [] => Or.inr rfl
  | a :: as, b :: bs => by
    rcases lt_trichotomy a b with h | h | h
    · left; simp [leChars, h]
    · subst h
      rcases leChars_total as bs with ih | ih
      · left; simp [leChars, ih]
      · right; simp [leChars, ih]
    · right; simp [leChars, h]

theorem leChars_trans :
    ∀ as bs cs : List Char, leChars as bs = true → leChars bs cs = true →
      leChars as cs = true
  | [], _, _, _, _ => rfl
  | _ :: _, [], _, h, _ => by simp [leChars] at h
  | _ :: _, _ :: _, [], _, h => by simp [leChars] at h
  | a :: as, b :: bs, c :: cs, h1, h2 => by
    simp only [leChars, Bool.or_eq_true, Bool.and_eq_true, decide_eq_true_eq,
      beq_iff_eq] at h1 h2 ⊢
    rcases h1 with h1 | ⟨rfl, h1⟩
    · rcases h2 with h2 | ⟨rfl, h2⟩
      · exact Or.inl (lt_trans h1 h2)
      · exact Or.inl h1
    · rcases h2 with h2 | ⟨rfl, h2⟩
      · exact Or.inl h2
      · exact Or.inr ⟨rfl, leChars_trans as bs cs h1 h2⟩

theorem strLe_total (a b : String) : strLe a b = true ∨ strLe b a = true :=
  leChars_total a.data b.data

theorem strLe_trans {a b c : String} (h1 : strLe a b = true) (h2 : strLe b c = true) :
    strLe a c = true :=
  leChars_trans a.data b.data c.data h1 h2

theorem mem_pyInsert (z x : String) (l : List String) :
    z ∈ pyInsert x l ↔ z = x ∨ z ∈ l := by
  induction l with
  | nil => simp [pyInsert]
  | cons y ys ih =>
    by_cases h : strLe x y = true
    · simp [pyInsert, h]
    · simp only [pyInsert, if_neg h, List.mem_cons, ih]
      tauto

theorem pyInsert_perm (x : String) (l : List String) :
    List.Perm (pyInsert x l) (x :: l) := by
  induction l with
  | nil => exact List.Perm.refl _
  | cons y ys ih =>
    by_cases h : strLe x y = true
    · simp [pyInsert, h]
    · rw [pyInsert, if_neg h]
      exact (ih.cons y).trans (List.Perm.swap x y ys)

theorem pySorted_perm (l : List String) : List.Perm (pySorted l) l := by
  induction l with
  | nil => exact List.Perm.refl _
  | cons x xs ih => exact (pyInsert_perm x (pySorted xs)).trans (ih.cons x)

theorem mem_pySorted {z : String} {l : List String} : z ∈ pySorted l ↔ z ∈ l :=
  (pySorted_perm l).mem_iff

theorem mem_setSorted {z : String} {l : List String} : z ∈ setSorted l ↔ z ∈ l := by
  rw [setSorted, mem_pySorted, List.mem_dedup]

theorem pairwise_pyInsert (x : String) (l : List String)
    (h : l.Pairwise (fun a b => strLe a b = true)) :
    (pyInsert x l).Pairwise (fun a b => strLe a b = true) := by
  induction l with
  | nil => simp [pyInsert]
  | cons y ys ih =>
    by_cases hxy : strLe x y = true
    · rw [pyInsert, if_pos hxy]
      refine List.Pairwise.cons ?_ h
      intro z hz
      rcases List.mem_cons.mp hz with rfl | hz
      · exact hxy
      · exact strLe_trans hxy (List.rel_of_pairwise_cons h hz)
    · rw [pyInsert, if_neg hxy]
      rcases h with _ | ⟨hy, hys⟩
      refine List.Pairwise.cons ?_ (ih hys)
      intro z hz
      rcases (mem_pyInsert z x ys).mp hz with hzx | hz
      · rw [hzx]
        rcases strLe_total x y with h | h
        · exact absurd h hxy
        · exact h
      · exact hy z hz

theorem pairwise_pySorted (l : List String) :
    (pySorted l).Pairwise (fun a b => strLe a b = true) := by
  induction l with
  | nil => exact List.Pairwise.nil
  | cons x xs ih => exact pairwise_pyInsert x (pySorted xs) ih

theorem pySorted_eq_of_pairwise :
    ∀ {l : List String}, l.Pairwise (fun a b => strLe a b = true) → pySorted l = l
  | [], _ => rfl
  | x :: xs, h => by
    rcases h with _ | ⟨hx, hxs⟩
    rw [pySorted, pySorted_eq_of_pairwise hxs]
    cases xs with
    | nil => rfl
    | cons y ys => rw [pyInsert, if_pos (hx y (List.mem_cons_self y ys))]

theorem nodup_setSorted (l : List String) : (setSorted l).Nodup :=
  ((pySorted_perm l.dedup).nodup_iff).mpr (List.nodup_dedup l)

theorem setSorted_setSorted (l : List String) : setSorted (setSorted l) = setSorted l := by
  conv_lhs => rw [setSorted]
  rw [List.dedup_eq_self.mpr (nodup_setSorted l), setSorted,
    pySorted_eq_of_pairwise (pairwise_pySorted l.dedup)]

/-! ### Character lowering -/

theorem toNat_ofNat_valid {n : Nat} (h : n.isValidChar) : (Char.ofNat n).toNat = n := by
  rw [Char.ofNat, dif_pos h]
  rfl

theorem toLower_toNat (c : Char) :
    (Char.toLower c).toNat = if c.toNat ≥ 65 ∧ c.toNat ≤ 90 then c.toNat + 32 else c.toNat := by
  rw [Char.toLower]
  by_cases h : c.toNat ≥ 65 ∧ c.toNat ≤ 90
  · rw [if_pos h, if_pos h]
    exact toNat_ofNat_valid (Or.inl (by omega))
  · rw [if_neg h, if_neg h]

theorem char_toLower_idem (c : Char) :
    Char.toLower (Char.toLower c) = Char.toLower c := by
  have h := toLower_toNat c
  rw [Char.toLower]
  by_cases hc : c.toNat ≥ 65 ∧ c.toNat ≤ 90
  · rw [if_pos hc] at h
    rw [if_neg (by omega)]
  · rw [if_neg hc] at h
    rw [if_neg (by omega)]

theorem pyLower_idem (s : String) : pyLower (pyLower s) = pyLower s := by
  show String.mk ((s.data.map Char.toLower).map Char.toLower) = String.mk (s.data.map Char.toLower)
  rw [List.map_map]
  exact congrArg String.mk (List.map_congr_left fun c _ => char_toLower_idem c)

set_option maxRecDepth 20000 in
/-- Every vocabulary entry is already lower-case. -/
theorem vocab_pyLower : ∀ s ∈ TECHNICAL_SKILLS, pyLower s = s := by decide

/-! ### Unfolding `extract_skills` -/

theorem extract_skills_eq (nlp : AnnotationEngine) (text : String) :
    extract_skills nlp text = setSorted
      (tokenMatches (nlp.tokenize (pyLower text)) ++ phraseMatches (pyLower text) ++
       (if nlp.hasNER then entityMatches (nlp.entities (pyLower text)) else []) ++
       (if nlp.hasParser then
          match nlp.nounChunks (pyLower text) with
          | Except.ok chunks => chunkMatches chunks
          | Except.error _ => []
        else bigramMatches (nlp.tokenize (pyLower text)))) := rfl

/-! ### The claims -/

/-- C1: for every input text (and any annotation engine), the sequence
returned by `extract_skills` is lexicographically sorted in ascending order
and has no duplicates: `extract(T) == sorted(set(extract(T)))`. -/
theorem extract_skills_sorted_dedup (nlp : AnnotationEngine) (text : String) :
    extract_skills nlp text = setSorted (extract_skills nlp text) := by
  rw [extract_skills_eq nlp text, setSorted_setSorted]

/-- C2: every multi-word vocabulary entry (one containing a space) that
occurs as a substring of the lower-cased input text is included in the
result of `extract_skills`, for every annotation engine (so with or without
entity recognition or parsing capability). -/
theorem multiword_phrase_included (nlp : AnnotationEngine) (text skill : String)
    (h1 : skill ∈ TECHNICAL_SKILLS) (h2 : pyIn " " skill = true)
    (h3 : pyIn skill (pyLower text) = true) :
    skill ∈ extract_skills nlp text := by
  rw [extract_skills_eq, mem_setSorted]
  have hl : pyLower skill = skill := vocab_pyLower skill h1
  have hmem : skill ∈ phraseMatches (pyLower text) := by
    rw [phraseMatches]
    refine List.mem_map.mpr ⟨skill, List.mem_filter.mpr ⟨h1, ?_⟩, hl⟩
    simp [hl, h2, h3]
  simp [List.mem_append, hmem]

/-- C3: every token of the engine's tokenization of the lower-cased text
whose text has length > 1 and whose lower-cased text is a vocabulary entry is
included in the result of `extract_skills`; moreover everything the
token-exact strategy adds comes from a token of length > 1. -/
theorem token_exact_included (nlp : AnnotationEngine) (text token : String)
    (h1 : token ∈ nlp.tokenize (pyLower text)) (h2 : token.length > 1)
    (h3 : pyLower token ∈ TECHNICAL_SKILLS) :
    pyLower token ∈ extract_skills nlp text ∧
      ∀ s ∈ tokenMatches (nlp.tokenize (pyLower text)),
        ∃ tok ∈ nlp.tokenize (pyLower text), tok.length > 1 ∧ s = pyLower tok := by
  constructor
  · rw [extract_skills_eq, mem_setSorted]
    have hmem : pyLower token ∈ tokenMatches (nlp.tokenize (pyLower text)) := by
      rw [tokenMatches]
      refine List.mem_map.mpr ⟨token, List.mem_filter.mpr ⟨h1, ?_⟩, rfl⟩
      simp [h2, h3]
    simp [List.mem_append, hmem]
  · intro s hs
    rw [tokenMatches] at hs
    rcases List.mem_map.mp hs with ⟨tok, htok, rfl⟩
    rcases List.mem_filter.mp htok with ⟨hmem, hcond⟩
    simp only [Bool.and_eq_true, decide_eq_true_eq] at hcond
    exact ⟨tok, hmem, hcond.2, rfl⟩

/-- C4: with entity-recognition capability, for every ORG/PRODUCT entity of
length > 1 that is not purely numeric, if some whitespace-delimited word of
its lower-cased text is a vocabulary entry then the entire lower-cased entity
text is included in the result of `extract_skills`. -/
theorem entity_text_included (nlp : AnnotationEngine) (text : String)
    (ent : String × String) (hner : nlp.hasNER = true)
    (h1 : ent ∈ nlp.entities (pyLower text))
    (h2 : ent.2 = "ORG" ∨ ent.2 = "PRODUCT")
    (h3 : ent.1.length > 1) (h4 : pyIsDigit ent.1 = false)
    (h5 : ∃ w ∈ pySplit (pyLower ent.1), w ∈ TECHNICAL_SKILLS) :
    pyLower ent.1 ∈ extract_skills nlp text := by
  rw [extract_skills_eq, mem_setSorted]
  have hmem : pyLower ent.1 ∈ entityMatches (nlp.entities (pyLower text)) := by
    rw [entityMatches]
    refine List.mem_map.mpr ⟨ent, List.mem_filter.mpr ⟨h1, ?_⟩, rfl⟩
    have hlabel : (ent.2 == "ORG" || ent.2 == "PRODUCT") = true := by
      rcases h2 with h | h <;> simp [h]
    simp only [hlabel, Bool.true_and, Bool.and_eq_true, decide_eq_true_eq, Bool.not_eq_true',
      List.any_eq_true]
    refine ⟨⟨h3, h4⟩, ?_⟩
    rcases h5 with ⟨w, hw, hv⟩
    exact ⟨w, hw, by simpa using hv⟩
  simp [List.mem_append, hner, hmem]

/-- C5: with neither entity recognition nor parsing capability, the result is
exactly the sorted union of the token, phrase and bigram strategies (so no
entity-derived matches, and the bigram fallback replaces noun-chunk
matching); every adjacent token pair whose lower-casing is a vocabulary entry
is included, and extraction still returns a result. -/
theorem minimal_engine_degradation (nlp : AnnotationEngine) (text : String)
    (hner : nlp.hasNER = false) (hp : nlp.hasParser = false) :
    extract_skills nlp text =
      setSorted (tokenMatches (nlp.tokenize (pyLower text)) ++ phraseMatches (pyLower text) ++
        bigramMatches (nlp.tokenize (pyLower text))) ∧
      ∀ b ∈ bigrams (nlp.tokenize (pyLower text)), pyLower b ∈ TECHNICAL_SKILLS →
        pyLower b ∈ extract_skills nlp text := by
  constructor
  · rw [extract_skills_eq, hner, hp]
    simp
  · intro b hb hbv
    rw [extract_skills_eq, mem_setSorted, hp]
    have hmem : pyLower b ∈ bigramMatches (nlp.tokenize (pyLower text)) := by
      rw [bigramMatches]
      exact List.mem_filter.mpr ⟨List.mem_map.mpr ⟨b, hb, rfl⟩, by simpa using hbv⟩
    simp [List.mem_append, hmem]

/-- C6: when the engine advertises parsing capability but noun-chunk
extraction raises, `extract_skills` still returns (the exception is not
propagated) exactly the sorted union of the token-exact, phrase-substring and
entity strategies; the bigram fallback does not run. -/
theorem chunk_error_partial_results (nlp : AnnotationEngine) (text msg : String)
    (hp : nlp.hasParser = true)
    (hc : nlp.nounChunks (pyLower text) = Except.error msg) :
    extract_skills nlp text =
      setSorted (tokenMatches (nlp.tokenize (pyLower text)) ++ phraseMatches (pyLower text) ++
        (if nlp.hasNER then entityMatches (nlp.entities (pyLower text)) else [])) := by
  rw [extract_skills_eq, hp, hc]
  simp

/-- C7: calling `extract_skills` directly on the empty string returns the
empty list (the annotation engine produces an empty document for empty
input). -/
theorem empty_text_empty_result (nlp : AnnotationEngine)
    (h1 : nlp.tokenize "" = [])
    (h2 : nlp.hasNER = true → nlp.entities "" = [])
    (h3 : nlp.hasParser = true → nlp.nounChunks "" = Except.ok []) :
    extract_skills nlp "" = [] := by
  have hlow : pyLower "" = "" := rfl
  have hphrase : phraseMatches "" = [] := by decide
  rw [extract_skills_eq, hlow, h1, hphrase]
  cases hner : nlp.hasNER <;> cases hpar : nlp.hasParser <;>
    simp [h2, h3, hner, hpar, tokenMatches, bigramMatches, bigrams, chunkMatches,
      setSorted, pySorted]

/-- The batch loop of `extract_skills_from_batch` appends, in input order,
one result per item with non-empty text. -/
theorem batch_foldl_eq (nlp : AnnotationEngine) :
    ∀ (l : List JobDescriptionItem) (acc : List SkillsResult),
      l.foldl (fun acc job_desc =>
        if job_desc.text = "" then acc
        else acc ++ [{ job_id := job_desc.job_id,
                       skills := extract_skills nlp job_desc.text,
                       count := (extract_skills nlp job_desc.text).length }]) acc
        = acc ++ batchResultsSpec nlp l
  | [], acc => by simp [batchResultsSpec]
  | jd :: tl, acc => by
    by_cases hjd : jd.text = ""
    · rw [List.foldl_cons, if_pos hjd, batch_foldl_eq nlp tl acc]
      simp [batchResultsSpec, List.filter_cons, hjd]
    · rw [List.foldl_cons, if_neg hjd, batch_foldl_eq nlp tl]
      simp [batchResultsSpec, List.filter_cons, hjd]

/-- C8: for every non-empty batch, the batch operation returns one result per
item with non-empty text, in input order, each carrying that item's `job_id`,
its extracted skills and their count; items with empty text are skipped
without error; `total_processed` is the number of returned results. -/
theorem batch_results_per_item (nlp : AnnotationEngine)
    (batch : List JobDescriptionItem) (h : batch ≠ []) :
    extract_skills_from_batch nlp batch =
      Except.ok { results := batchResultsSpec nlp batch,
                  total_processed := (batchResultsSpec nlp batch).length } := by
  rw [extract_skills_from_batch, if_neg h]
  rw [batch_foldl_eq nlp batch []]
  simp

/-- C9: `extract_skills` is deterministic: the same text with the same
annotation engine (the same capability surface) yields the same result. -/
theorem extract_skills_deterministic (e1 e2 : AnnotationEngine) (text : String)
    (ht : e1.tokenize = e2.tokenize) (hn : e1.hasNER = e2.hasNER)
    (he : e1.entities = e2.entities) (hp : e1.hasParser = e2.hasParser)
    (hc : e1.nounChunks = e2.nounChunks) :
    extract_skills e1 text = extract_skills e2 text := by
  cases e1
  cases e2
  simp only at ht hn he hp hc
  subst ht
  subst hn
  subst he
  subst hp
  subst hc
  rfl

/-- C10: every string in the result of `extract_skills` is entirely
lower-case, and is either exactly a vocabulary entry or the lower-cased text
of an ORG/PRODUCT entity one of whose whitespace-delimited words is a
vocabulary entry. -/
theorem extract_skills_provenance (nlp : AnnotationEngine) (text x : String)
    (hx : x ∈ extract_skills nlp text) :
    pyLower x = x ∧
      (x ∈ TECHNICAL_SKILLS ∨
        (nlp.hasNER = true ∧ ∃ ent ∈ nlp.entities (pyLower text),
          (ent.2 = "ORG" ∨ ent.2 = "PRODUCT") ∧ x = pyLower ent.1 ∧
          ∃ w ∈ pySplit (pyLower ent.1), w ∈ TECHNICAL_SKILLS)) := by
  rw [extract_skills_eq, mem_setSorted] at hx
  rcases List.mem_append.mp hx with hx123 | hx4
  · rcases List.mem_append.mp hx123 with hx12 | hx3
    · rcases List.mem_append.mp hx12 with hx1 | hx2
      · -- token-exact strategy
        rw [tokenMatches] at hx1
        rcases List.mem_map.mp hx1 with ⟨tok, htok, rfl⟩
        rcases List.mem_filter.mp htok with ⟨_, hcond⟩
        simp only [Bool.and_eq_true, decide_eq_true_eq] at hcond
        have hv : pyLower tok ∈ TECHNICAL_SKILLS := by simpa using hcond.1
        exact ⟨vocab_pyLower _ hv ▸ pyLower_idem tok, Or.inl hv⟩
      · -- phrase-substring strategy
        rw [phraseMatches] at hx2
        rcases List.mem_map.mp hx2 with ⟨sk, hsk, rfl⟩
        rcases List.mem_filter.mp hsk with ⟨hskv, _⟩
        rw [vocab_pyLower sk hskv]
        exact ⟨vocab_pyLower sk hskv, Or.inl hskv⟩
    · -- entity strategy
      rcases hN : nlp.hasNER with _ | _
      · rw [hN] at hx3
        simp at hx3
      · rw [hN] at hx3
        rw [if_pos rfl] at hx3
        rw [entityMatches] at hx3
        rcases List.mem_map.mp hx3 with ⟨ent, hent, rfl⟩
        rcases List.mem_filter.mp hent with ⟨hmem, hcond⟩
        simp only [Bool.and_eq_true, Bool.or_eq_true, beq_iff_eq, decide_eq_true_eq,
          Bool.not_eq_true', List.any_eq_true] at hcond
        rcases hcond with ⟨⟨⟨hlabel, _⟩, _⟩, w, hw, hwv⟩
        refine ⟨pyLower_idem ent.1, Or.inr ⟨rfl, ent, hmem, hlabel, rfl, w, hw, ?_⟩⟩
        simpa using hwv
  · -- strategy 4 (chunks or bigrams)
    rcases hP : nlp.hasParser with _ | _
    · rw [hP] at hx4
      rw [if_neg Bool.false_ne_true] at hx4
      rw [bigramMatches] at hx4
      rcases List.mem_filter.mp hx4 with ⟨hmap, hcond⟩
      have hv : x ∈ TECHNICAL_SKILLS := by simpa using hcond
      exact ⟨vocab_pyLower x hv, Or.inl hv⟩
    · rw [hP] at hx4
      rcases hC : nlp.nounChunks (pyLower text) with msg | chunks
      · rw [hC] at hx4
        have hx4' : x ∈ ([] : List String) := hx4
        simp at hx4'
      · rw [hC] at hx4
        have hx4' : x ∈ chunkMatches chunks := hx4
        rw [chunkMatches] at hx4'
        rcases List.mem_flatMap.mp hx4' with ⟨c, _, hcf⟩
        rcases List.mem_filter.mp hcf with ⟨hv, _⟩
        exact ⟨vocab_pyLower x hv, Or.inl hv⟩

/-! ### Witnesses -/

/-- Witness for C2 at a concrete input. -/
theorem multiword_phrase_included_witness :
    "machine learning" ∈ extract_skills minimalEngine "We use Machine Learning daily" :=
  multiword_phrase_included minimalEngine "We use Machine Learning daily" "machine learning"
    (by decide) (by decide) (by decide)

/-- Witness for C3 at a concrete input. -/
theorem token_exact_included_witness :
    pyLower "python" ∈ extract_skills minimalEngine "Python rules" ∧
      ∀ s ∈ tokenMatches (minimalEngine.tokenize (pyLower "Python rules")),
        ∃ tok ∈ minimalEngine.tokenize (pyLower "Python rules"),
          tok.length > 1 ∧ s = pyLower tok :=
  token_exact_included minimalEngine "Python rules" "python"
    (by decide) (by decide) (by decide)

/-- Witness for C4 at a concrete input. -/
theorem entity_text_included_witness :
    pyLower "Apache Kafka Inc" ∈ extract_skills richEngine "Join Apache Kafka Inc" :=
  entity_text_included richEngine "Join Apache Kafka Inc" ("Apache Kafka Inc", "ORG")
    (by decide) (by decide) (by decide) (by decide) (by decide) (by decide)

/-- Witness for C5 at a concrete input. -/
theorem minimal_engine_degradation_witness :
    extract_skills minimalEngine "Big Data tools" =
      setSorted (tokenMatches (minimalEngine.tokenize (pyLower "Big Data tools")) ++
        phraseMatches (pyLower "Big Data tools") ++
        bigramMatches (minimalEngine.tokenize (pyLower "Big Data tools"))) ∧
      ∀ b ∈ bigrams (minimalEngine.tokenize (pyLower "Big Data tools")),
        pyLower b ∈ TECHNICAL_SKILLS → pyLower b ∈ extract_skills minimalEngine "Big Data tools" :=
  minimal_engine_degradation minimalEngine "Big Data tools" (by decide) (by decide)

/-- Witness for C6 at a concrete input. -/
theorem chunk_error_partial_results_witness :
    extract_skills brokenParserEngine "Python and Docker" =
      setSorted (tokenMatches (brokenParserEngine.tokenize (pyLower "Python and Docker")) ++
        phraseMatches (pyLower "Python and Docker") ++
        (if brokenParserEngine.hasNER then
          entityMatches (brokenParserEngine.entities (pyLower "Python and Docker")) else [])) :=
  chunk_error_partial_results brokenParserEngine "Python and Docker" "boom"
    (by decide) rfl

/-- Witness for C7 at a concrete engine. -/
theorem empty_text_empty_result_witness :
    extract_skills minimalEngine "" = [] :=
  empty_text_empty_result minimalEngine rfl
    (fun h => nomatch h) (fun h => nomatch h)

/-- Witness for C8 at the batch example of the spec. -/
theorem batch_results_per_item_witness :
    extract_skills_from_batch minimalEngine exampleBatch =
      Except.ok { results := batchResultsSpec minimalEngine exampleBatch,
                  total_processed := (batchResultsSpec minimalEngine exampleBatch).length } :=
  batch_results_per_item minimalEngine exampleBatch (by decide)

/-- Witness for C9 at a concrete engine and text. -/
theorem extract_skills_deterministic_witness :
    extract_skills minimalEngine "Rust and Go" = extract_skills minimalEngine "Rust and Go" :=
  extract_skills_deterministic minimalEngine minimalEngine "Rust and Go"
    rfl rfl rfl rfl rfl

/-- Witness for C10 at a concrete result element. -/
theorem extract_skills_provenance_witness :
    pyLower "python" = "python" ∧
      ("python" ∈ TECHNICAL_SKILLS ∨
        (minimalEngine.hasNER = true ∧
          ∃ ent ∈ minimalEngine.entities (pyLower "I like python"),
            (ent.2 = "ORG" ∨ ent.2 = "PRODUCT") ∧ "python" = pyLower ent.1 ∧
            ∃ w ∈ pySplit (pyLower ent.1), w ∈ TECHNICAL_SKILLS)) :=
  extract_skills_provenance minimalEngine "I like python" "python" (by decide)

end SkillsExtractor
